import Mathlib

/-!
Verification development for the `aio-cna-core-ims-oauth` login flow.

The embedding follows `src/login.js` (the login orchestrator: its request
handler, timeout callback and response writing) directly.  The helper module
`src/helpers.js` is not part of the sources available here (only its test
suite is), so the helper functions it exports (`stringToJson`, `handleGET`,
`handlePOST`, `handleOPTIONS`, `handleUnsupportedHttpMethod`, `authSiteUrl`,
`getImsCliOAuthUrl`, `cors`, `codeTransform`) are modelled from the
specification and the expectations of the test suite; each such definition
carries a doc comment saying so.
-/

/-- Characters that would clash with the surrounding syntax are named. -/
def lbrace : Char := Char.ofNat 123

def rbrace : Char := Char.ofNat 125

def quoteChar : Char := Char.ofNat 34

/-- JSON values in the subset exchanged by this flow: strings, and objects
whose member values are themselves such values.  This covers the `state`
correlation payloads (`\x7b"id": ...\x7d`) and the token payloads
(`\x7b"access_token": ...\x7d`) that the handlers parse. -/
inductive JVal where
  | jstr (s : String)
  | jobj (fields : List (String × JVal))

mutual

/-- Boolean equality on `JVal`, by simultaneous recursion with equality on
field lists. -/
def JVal.beq : JVal → JVal → Bool
  | JVal.jstr a, JVal.jstr b => a == b
  | JVal.jobj a, JVal.jobj b => JVal.beqFields a b
  | _, _ => false

/-- Boolean equality on JSON member lists. -/
def JVal.beqFields : List (String × JVal) → List (String × JVal) → Bool
  | [], [] => true
  | (k, v) :: rest, (k2, v2) :: rest2 =>
      k == k2 && JVal.beq v v2 && JVal.beqFields rest rest2
  | _, _ => false

end

instance : BEq JVal := ⟨JVal.beq⟩

mutual

/-- Reflexivity of `JVal.beq`. -/
theorem JVal.beq_refl : (v : JVal) → JVal.beq v v = true
  | JVal.jstr _ => by simp [JVal.beq]
  | JVal.jobj fields => by simp [JVal.beq, JVal.beqFields_refl fields]

/-- Reflexivity of `JVal.beqFields`. -/
theorem JVal.beqFields_refl : (l : List (String × JVal)) → JVal.beqFields l l = true
  | [] => rfl
  | (k, v) :: rest => by
      simp [JVal.beqFields, JVal.beq_refl v, JVal.beqFields_refl rest]

end

mutual

/-- Boolean equality `JVal.beq` implies propositional equality. -/
theorem JVal.eq_of_beq : {a b : JVal} → JVal.beq a b = true → a = b
  | JVal.jstr _, JVal.jstr _, h => by
      simp [JVal.beq] at h; simp [h]
  | JVal.jobj a, JVal.jobj b, h => by
      simp only [JVal.beq] at h
      exact congrArg JVal.jobj (JVal.eqFields_of_beqFields h)
  | JVal.jstr _, JVal.jobj _, h => by simp [JVal.beq] at h
  | JVal.jobj _, JVal.jstr _, h => by simp [JVal.beq] at h

/-- Boolean equality `JVal.beqFields` implies propositional equality. -/
theorem JVal.eqFields_of_beqFields :
    {a b : List (String × JVal)} → JVal.beqFields a b = true → a = b
  | [], [], _ => rfl
  | (k, v) :: rest, (k2, v2) :: rest2, h => by
      simp only [JVal.beqFields, Bool.and_eq_true, beq_iff_eq] at h
      obtain ⟨⟨hk, hv⟩, hrest⟩ := h
      have h1 := JVal.eq_of_beq hv
      have h2 := JVal.eqFields_of_beqFields hrest
      simp [hk, h1, h2]
  | [], _ :: _, h => by simp [JVal.beqFields] at h
  | _ :: _, [], h => by simp [JVal.beqFields] at h

end

instance : DecidableEq JVal := fun a b =>
  if h : JVal.beq a b = true then
    Decidable.isTrue (JVal.eq_of_beq h)
  else
    Decidable.isFalse (fun he => h (he ▸ JVal.beq_refl a))

/-- Whitespace recognised by the JSON parser, by code point: space, tab,
line feed, carriage return. -/
def isSpaceChar (c : Char) : Bool :=
  c.toNat == 32 || c.toNat == 9 || c.toNat == 10 || c.toNat == 13

/-- Drop leading whitespace from the input. -/
def dropSpaces : List Char → List Char
  | [] => []
  | c :: cs => if isSpaceChar c then dropSpaces cs else c :: cs

/-- Parse a JSON string literal (without escape sequences): a leading
quote, the contents, the closing quote.  Returns the contents and the
remaining input. -/
def parseStringLitAux : List Char → List Char → Option (String × List Char)
  | [], _ => none
  | c :: cs, acc =>
      if c == quoteChar then some (String.mk acc.reverse, cs)
      else parseStringLitAux cs (c :: acc)

/-- Entry point for string-literal parsing: requires a leading quote. -/
def parseStringLit : List Char → Option (String × List Char)
  | [] => none
  | c :: cs => if c == quoteChar then parseStringLitAux cs [] else none

mutual

/-- Fuel-indexed recursive-descent parser for the `JVal` subset of JSON:
a value is a string literal or an object. -/
def parseJVal : Nat → List Char → Option (JVal × List Char)
  | 0, _ => none
  | Nat.succ fuel, cs =>
    match dropSpaces cs with
    | [] => none
    | c :: rest =>
      if c == lbrace then
        match dropSpaces rest with
        | [] => none
        | c2 :: rest2 =>
          if c2 == rbrace then some (JVal.jobj [], rest2)
          else
            match parseMembers fuel (c2 :: rest2) with
            | some (fields, rest3) =>
              match dropSpaces rest3 with
              | [] => none
              | c3 :: rest4 =>
                if c3 == rbrace then some (JVal.jobj fields, rest4) else none
            | none => none
      else
        match parseStringLit (c :: rest) with
        | some (s, rest2) => some (JVal.jstr s, rest2)
        | none => none

/-- Fuel-indexed parser for a non-empty comma-separated list of JSON object
members `"key": value`. -/
def parseMembers : Nat → List Char → Option (List (String × JVal) × List Char)
  | 0, _ => none
  | Nat.succ fuel, cs =>
    match parseStringLit (dropSpaces cs) with
    | some (k, rest) =>
      match dropSpaces rest with
      | [] => none
      | c :: rest2 =>
        if c == ':' then
          match parseJVal fuel rest2 with
          | some (v, rest3) =>
            match dropSpaces rest3 with
            | ',' :: rest4 =>
              match parseMembers fuel rest4 with
              | some (fields, rest5) => some ((k, v) :: fields, rest5)
              | none => none
            | rest4 => some ([(k, v)], rest4)
          | none => none
        else none
    | none => none

end

/-- Strict JSON parsing of a whole string in the `JVal` subset: the parse
must succeed and consume everything but trailing whitespace.  This models
`JSON.parse` on the payloads this flow handles. -/
def parseJson (s : String) : Option JVal :=
  match parseJVal (s.data.length + 1) s.data with
  | some (v, rest) => if (dropSpaces rest).isEmpty then some v else none
  | none => none

/-- Modelled from the spec: `stringToJson` lives in `src/helpers.js`, which
is absent from the sources here (only its test suite imports it).  Per the
spec's lenient best-effort JSON coercion and the tests
(`stringToJson('\x7b') = \x7b\x7d`), it parses a string as JSON and
returns the empty object when parsing fails. -/
def stringToJson (s : String) : JVal :=
  (parseJson s).getD (JVal.jobj [])

/-- Property access on a JSON value (`state.id` in the source): defined on
objects, `none` (JS `undefined`) otherwise. -/
def lookupField : List (String × JVal) → String → Option JVal
  | [], _ => none
  | (k2, v) :: rest, k => if k2 == k then some v else lookupField rest k

/-- Property lookup `jGet state key` models `state[key]` on a parsed JSON value. -/
def jGet : JVal → String → Option JVal
  | JVal.jobj fields, k => lookupField fields k
  | JVal.jstr _, _ => none

/-- Numeric value of a hexadecimal digit, by code point (digits, then the
lowercase and uppercase letter ranges); `none` otherwise. -/
def hexDigitVal (c : Char) : Option Nat :=
  let n := c.toNat
  if 48 ≤ n && n ≤ 57 then some (n - 48)
  else if 97 ≤ n && n ≤ 102 then some (n - 87)
  else if 65 ≤ n && n ≤ 70 then some (n - 55)
  else none

/-- Percent-decoding as performed by the Node query-string parser: `%XX`
becomes the byte `XX`, `+` becomes a space, everything else is kept. -/
def percentDecode : List Char → List Char
  | [] => []
  | '%' :: h1 :: h2 :: rest =>
      match hexDigitVal h1, hexDigitVal h2 with
      | some a, some b => Char.ofNat (16 * a + b) :: percentDecode rest
      | _, _ => '%' :: percentDecode (h1 :: h2 :: rest)
  | '+' :: rest => ' ' :: percentDecode rest
  | c :: rest => c :: percentDecode rest

/-- Split a character list on a separator character. -/
def splitOnCharAux (sep : Char) : List Char → List Char → List (List Char)
  | [], acc => [acc.reverse]
  | c :: cs, acc =>
      if c == sep then acc.reverse :: splitOnCharAux sep cs []
      else splitOnCharAux sep cs (c :: acc)

/-- Split a `key=value` component at the first `=`; a missing `=` yields an
empty value, as the Node query-string parser does. -/
def splitKV : List Char → List Char × List Char
  | [] => ([], [])
  | '=' :: rest => ([], rest)
  | c :: rest =>
      let (k, v) := splitKV rest
      (c :: k, v)

/-- Query data: the parsed key/value pairs of a query string or of a
URL-encoded request body. -/
abbrev QueryData := List (String × String)

/-- Parse a query string (already stripped of the leading `?`) into query
data: split on `&`, split each component at the first `=`, percent-decode
keys and values.  The empty string parses to no pairs. -/
def parseQueryChars (s : List Char) : QueryData :=
  if s.isEmpty then []
  else
    (splitOnCharAux '&' s []).map fun p =>
      let (k, v) := splitKV p
      (String.mk (percentDecode k), String.mk (percentDecode v))

/-- The query part of a request URL: everything after the first `?`, if
any. -/
def queryPart : List Char → Option (List Char)
  | [] => none
  | '?' :: rest => some rest
  | _ :: rest => queryPart rest

/-- Modelled from the spec: `getQueryDataFromRequest` lives in
`src/helpers.js`, absent from the sources here; per the spec it parses the
request URL's query string into query data. -/
def getQueryDataFromUrl (url : String) : QueryData :=
  match queryPart url.data with
  | some q => parseQueryChars q
  | none => []

/-- First-match lookup in query data (JS property access on the parsed
query object). -/
def qLookup : QueryData → String → Option String
  | [], _ => none
  | (k2, v) :: rest, k => if k2 == k then some v else qLookup rest k

/-- JS truthiness of `queryData.code`: the field is present and is a
non-empty string. -/
def codeTruthy (qd : QueryData) : Bool :=
  match qLookup qd "code" with
  | some c => c != ""
  | none => false

/-- The received `code` value as it appears interpolated into the error
template `error code=$\x7bqueryData.code\x7d`: the string itself, or
`undefined` when the field is missing. -/
def codeShown (qd : QueryData) : String :=
  match qLookup qd "code" with
  | some c => c
  | none => "undefined"

/-- The value `stringToJson(queryData.state)` as evaluated in `src/login.js` line 54:
a missing `state` field is JS `undefined`, whose `JSON.parse` throws, so
the lenient parse yields the empty object. -/
def stateOf (qd : QueryData) : JVal :=
  match qLookup qd "state" with
  | some s => stringToJson s
  | none => JVal.jobj []

/-- Outcome of the promise owned by `login` in `src/login.js`: resolved
with the raw `queryData.code` string, or rejected with an error message. -/
inductive Outcome where
  | resolve (code : String)
  | reject (message : String)
deriving DecidableEq, Repr

/-- The terminal-request decision of `src/login.js` lines 51-64: resolve
with `queryData.code` when `queryData.code` is truthy and the parsed
`state.id` strictly equals the session id; otherwise reject with
`error code=` followed by the received code value. -/
def loginHandleRequest (qd : QueryData) (id : String) : Outcome :=
  if codeTruthy qd && (jGet (stateOf qd) "id" == some (JVal.jstr id)) then
    Outcome.resolve (codeShown qd)
  else
    Outcome.reject ("error code=" ++ codeShown qd)

instance : LawfulBEq JVal where
  eq_of_beq := JVal.eq_of_beq
  rfl := JVal.beq_refl _

/-- C1: for every inbound request, the flow of `src/login.js` resolves with
the captured credential (the raw `queryData.code` string) if and only if
the query data's `code` field is truthy and its `state` field parses to
JSON whose `id` equals the session id; in every other combination it
rejects with an error whose message names the received code value. -/
theorem login_resolves_iff_code_and_state_match (qd : QueryData) (id : String) :
    ((∃ c, loginHandleRequest qd id = Outcome.resolve c) ↔
      (codeTruthy qd = true ∧ jGet (stateOf qd) "id" = some (JVal.jstr id))) ∧
    (codeTruthy qd = true → jGet (stateOf qd) "id" = some (JVal.jstr id) →
      loginHandleRequest qd id = Outcome.resolve (codeShown qd)) ∧
    (¬ (codeTruthy qd = true ∧ jGet (stateOf qd) "id" = some (JVal.jstr id)) →
      loginHandleRequest qd id = Outcome.reject ("error code=" ++ codeShown qd)) := by
  have hsplit : (codeTruthy qd && (jGet (stateOf qd) "id" == some (JVal.jstr id))) = true
      ↔ (codeTruthy qd = true ∧ jGet (stateOf qd) "id" = some (JVal.jstr id)) := by
    rw [Bool.and_eq_true, beq_iff_eq]
  by_cases h : codeTruthy qd = true ∧ jGet (stateOf qd) "id" = some (JVal.jstr id)
  · have hb := hsplit.mpr h
    refine ⟨?_, ?_, ?_⟩
    · simp [loginHandleRequest, hb, h]
    · intro _ _
      simp [loginHandleRequest, hb]
    · intro hn
      exact absurd h hn
  · have hb : (codeTruthy qd && (jGet (stateOf qd) "id" == some (JVal.jstr id))) = false := by
      cases hc : (codeTruthy qd && (jGet (stateOf qd) "id" == some (JVal.jstr id)))
      · rfl
      · exact absurd (hsplit.mp hc) h
    refine ⟨?_, ?_, ?_⟩
    · simp [loginHandleRequest, hb, h]
    · intro h1 h2
      exact absurd ⟨h1, h2⟩ h
    · intro _
      simp [loginHandleRequest, hb]

/-- Witness for C1 at a concrete request whose state id does not match the
session id. -/
theorem login_resolves_iff_code_and_state_match_witness :
    loginHandleRequest [("code", "x"), ("state", "\x7b\x22id\x22:\x22a\x22\x7d")] "b"
      = Outcome.reject "error code=x" := by
  rw [(login_resolves_iff_code_and_state_match
    [("code", "x"), ("state", "\x7b\x22id\x22:\x22a\x22\x7d")] "b").2.2 (by decide)]
  decide

/-- C10: a `state` field that is not valid JSON is parsed leniently to the
empty object instead of raising, so the handler treats the request as a
correlation failure: the id comparison fails and the flow rejects. -/
theorem malformed_state_rejects (s : String) (qd : QueryData) (id : String)
    (hmal : parseJson s = none) (hstate : qLookup qd "state" = some s) :
    stringToJson s = JVal.jobj [] ∧
    loginHandleRequest qd id = Outcome.reject ("error code=" ++ codeShown qd) := by
  have h1 : stringToJson s = JVal.jobj [] := by rw [stringToJson, hmal]; rfl
  have h2 : stateOf qd = JVal.jobj [] := by rw [stateOf, hstate]; exact h1
  have hid : jGet (stateOf qd) "id" = none := by rw [h2]; rfl
  have hb : (jGet (stateOf qd) "id" == some (JVal.jstr id)) = false := by
    rw [hid]; rfl
  refine ⟨h1, ?_⟩
  simp [loginHandleRequest, hb]

/-- Witness for C10 at the concrete malformed state string from the test
suite (a lone opening brace). -/
theorem malformed_state_rejects_witness :
    stringToJson "\x7b" = JVal.jobj [] ∧
    loginHandleRequest [("code", "x"), ("state", "\x7b")] "a"
      = Outcome.reject "error code=x" := by
  have h := malformed_state_rejects "\x7b" [("code", "x"), ("state", "\x7b")] "a"
    (by decide) rfl
  exact ⟨h.1, by rw [h.2]; decide⟩

/-- Default timeout in seconds, `src/login.js` line 18. -/
def AUTH_TIMEOUT_SECONDS : Nat := 120

/-- The effective timeout of one `login` call, `src/login.js` line 32:
`options.timeout` when given, else the default. -/
def effectiveTimeout (optTimeout : Option Nat) : Nat :=
  optTimeout.getD AUTH_TIMEOUT_SECONDS

/-- Observable state of one `login` flow: whether its promise has settled
(and how), whether the HTTP listener has been closed, and whether the
timeout timer has been cleared. -/
structure LoginState where
  result : Option Outcome
  serverClosed : Bool
  timerCleared : Bool
deriving DecidableEq, Repr

/-- Flow state right after `login` starts waiting: promise pending, server
listening, timer armed. -/
def LoginState.start : LoginState := ⟨none, false, false⟩

/-- The timeout callback of `src/login.js` lines 46-49: reject the promise
(a no-op when it has already settled) and stop the spinner.  The callback
neither clears the timer (it has just fired) nor calls `server.close()` -
that call appears only in the request handler, line 70. -/
def onTimeout (timeoutSecs : Nat) (st : LoginState) : LoginState :=
  match st.result with
  | some _ => st
  | none =>
      { st with result := some (Outcome.reject
          ("Timed out after " ++ Nat.repr timeoutSecs ++ " seconds.")) }

/-- State of the HTTP response the handler writes back to the browser. -/
structure ResponseState where
  statusCode : Option Nat
  contentType : Option String
  body : Option String
  ended : Bool
deriving DecidableEq, Repr

/-- Observable events emitted by the request handler, in execution order. -/
inductive Ev where
  | settled (o : Outcome)
  | respEnd
  | serverClose
deriving DecidableEq, Repr

/-- Result of running the whole request handler of `src/login.js` lines
51-71: the settled flow state, the response sent to the browser, and the
ordered trace of observable events. -/
structure RequestEffect where
  state : LoginState
  response : ResponseState
  trace : List Ev
deriving DecidableEq, Repr

/-- The full request handler of `src/login.js` lines 51-71: decide the
outcome (lines 57-64, clearing the timer in both branches; settling is a
no-op on an already-settled promise), then write the terminal plain-text
page (lines 66-68), then close the server (line 70). -/
def onRequest (qd : QueryData) (id : String) (st : LoginState) : RequestEffect :=
  let o := loginHandleRequest qd id
  { state :=
      { result := some (st.result.getD o)
        serverClosed := true
        timerCleared := true }
    response :=
      { statusCode := some 200
        contentType := some "text/plain"
        body := some "You are now signed in, please close this window.\n"
        ended := true }
    trace := [Ev.settled o, Ev.respEnd, Ev.serverClose] }

/-- C2 (code evidence): the default window is 120 seconds and the timeout
callback rejects with the timeout message, but the listener is not closed
there: `server.close()` appears only in the request handler
(`src/login.js` line 70), never in the timeout callback (lines 46-49), so
a timed-out flow leaves the server listening. -/
theorem timeout_rejects_but_leaves_listener_open :
    effectiveTimeout none = 120 ∧
    (onTimeout 1 LoginState.start).result
      = some (Outcome.reject "Timed out after 1 seconds.") ∧
    (onTimeout 1 LoginState.start).serverClosed = false := by
  refine ⟨rfl, ?_, rfl⟩
  decide

/-- C4 (amended): on every terminal request, success or failure alike, the
browser receives the same terminal plain-text page (HTTP 200,
`text/plain`, the sign-in confirmation body), and the response is ended
strictly before the server close in the handler's event order. -/
theorem terminal_response_before_close (qd : QueryData) (id : String) (st : LoginState) :
    (onRequest qd id st).response.statusCode = some 200 ∧
    (onRequest qd id st).response.contentType = some "text/plain" ∧
    (onRequest qd id st).response.body
      = some "You are now signed in, please close this window.\n" ∧
    (onRequest qd id st).response.ended = true ∧
    (onRequest qd id st).state.serverClosed = true ∧
    (onRequest qd id st).trace
      = [Ev.settled (loginHandleRequest qd id), Ev.respEnd, Ev.serverClose] :=
  ⟨rfl, rfl, rfl, rfl, rfl, rfl⟩

/-- C4 counterexample: the failure path does not send a distinct
please-try-again page: at the concrete mismatched request below the flow
rejects, yet the body written to the browser is exactly the success body
(the sign-in confirmation). -/
theorem failure_page_equals_success_page :
    loginHandleRequest [("state", "bad")] "sid" = Outcome.reject "error code=undefined" ∧
    (onRequest [("state", "bad")] "sid" LoginState.start).response.body
      = (onRequest [("code", "ok"), ("state", "\x7b\x22id\x22:\x22sid\x22\x7d")] "sid"
          LoginState.start).response.body ∧
    (onRequest [("state", "bad")] "sid" LoginState.start).response.body
      = some "You are now signed in, please close this window.\n" := by
  refine ⟨?_, rfl, rfl⟩
  decide

/-- Deployment environments recognised by the flow. -/
inductive Env where
  | stage
  | prod
deriving DecidableEq, Repr

/-- A URL split into its origin components and path. -/
structure UrlParts where
  scheme : String
  host : String
  path : String
deriving DecidableEq, Repr

/-- Origin component of a URL: scheme and host (any port is part of the
host component). -/
def UrlParts.origin (u : UrlParts) : String := u.scheme ++ "://" ++ u.host

/-- The full URL string. -/
def UrlParts.href (u : UrlParts) : String := u.origin ++ u.path

/-- Modelled from the spec: the static `IMS_CLI_OAUTH_URL` endpoint map of
`src/helpers.js` (absent from the sources here) maps each environment to
its authorization URL.  The spec fixes the shape (an immutable map from
environment to a URL with an origin and a non-empty path, distinct per
environment), not the concrete strings; representative values are used. -/
def IMS_CLI_OAUTH_URL : Env → UrlParts
  | Env.prod =>
      ⟨"https", "aio-login.adobeioruntime.net", "/api/v1/web/default/applogin"⟩
  | Env.stage =>
      ⟨"https", "aio-login-stage.adobeioruntime.net", "/api/v1/web/default/applogin"⟩

/-- Modelled from the spec: environment resolution in `src/helpers.js`
(absent from the sources here): an explicitly passed environment wins over
the globally configured CLI environment, which wins over the PROD
default. -/
def resolveEnvironment (explicitEnv globalCliEnv : Option Env) : Env :=
  match explicitEnv with
  | some e => e
  | none =>
      match globalCliEnv with
      | some e => e
      | none => Env.prod

/-- Modelled from the spec: `getImsCliOAuthUrl` of `src/helpers.js` returns
the authorization URL of the resolved environment. -/
def getImsCliOAuthUrl (explicitEnv globalCliEnv : Option Env) : UrlParts :=
  IMS_CLI_OAUTH_URL (resolveEnvironment explicitEnv globalCliEnv)

/-- C6: an explicitly passed environment always wins over the globally
configured CLI environment, the configured environment wins over the
default, and with neither input the result is PROD; `getImsCliOAuthUrl`
follows the same precedence. -/
theorem resolveEnvironment_precedence (e g : Env) (go : Option Env) :
    resolveEnvironment (some e) go = e ∧
    resolveEnvironment none (some g) = g ∧
    resolveEnvironment none none = Env.prod ∧
    getImsCliOAuthUrl (some e) go = IMS_CLI_OAUTH_URL e ∧
    getImsCliOAuthUrl none (some g) = IMS_CLI_OAUTH_URL g ∧
    getImsCliOAuthUrl none none = IMS_CLI_OAUTH_URL Env.prod :=
  ⟨rfl, rfl, rfl, rfl, rfl, rfl⟩

/-- State of an HTTP response as the helper handlers build it. -/
structure HttpResponse where
  statusCode : Option Nat
  headers : List (String × String)
  body : Option String
  ended : Bool
deriving DecidableEq, Repr

/-- A fresh response: no status, no headers, no body, not ended. -/
def HttpResponse.start : HttpResponse := ⟨none, [], none, false⟩

/-- Header assignment `response.setHeader(key, value)`: the latest value for a key wins. -/
def HttpResponse.setHeader (res : HttpResponse) (k v : String) : HttpResponse :=
  { res with headers := (k, v) :: res.headers }

/-- The current value of a response header. -/
def headerValue (res : HttpResponse) (k : String) : Option String :=
  qLookup res.headers k

/-- Modelled from the spec: `cors` of `src/helpers.js` (absent from the
sources here) sets the `Access-Control-Allow-Origin` response header to
the origin component of the resolved environment's authorization URL. -/
def cors (res : HttpResponse) (explicitEnv globalCliEnv : Option Env) : HttpResponse :=
  res.setHeader "Access-Control-Allow-Origin"
    (UrlParts.origin (getImsCliOAuthUrl explicitEnv globalCliEnv))

/-- C9: for each environment the CORS policy sets the allow-origin header
to exactly the origin component (scheme and host) of that environment's
authorization URL - never the full URL and never a wildcard. -/
theorem cors_sets_exact_origin (res : HttpResponse) (env : Env) (g : Option Env) :
    headerValue (cors res (some env) g) "Access-Control-Allow-Origin"
      = some (UrlParts.origin (IMS_CLI_OAUTH_URL env)) ∧
    UrlParts.origin (IMS_CLI_OAUTH_URL env)
      = (IMS_CLI_OAUTH_URL env).scheme ++ "://" ++ (IMS_CLI_OAUTH_URL env).host ∧
    UrlParts.origin (IMS_CLI_OAUTH_URL env) ≠ UrlParts.href (IMS_CLI_OAUTH_URL env) ∧
    UrlParts.origin (IMS_CLI_OAUTH_URL env) ≠ "*" := by
  refine ⟨?_, rfl, ?_, ?_⟩
  · rfl
  · cases env <;> decide
  · cases env <;> decide

/-- A captured credential: the raw authorization-code string for the
`auth_code` grant, or the parsed JSON token payload otherwise. -/
inductive Credential where
  | authCode (s : String)
  | tokenPayload (j : JVal)
deriving DecidableEq

/-- Modelled from the spec: `codeTransform` of `src/helpers.js` (absent
from the sources here): a bare authorization code (`code_type` of
`auth_code`) is returned unchanged; a token payload is parsed as strict
JSON, a parse failure surfacing as an error (`none`) rather than a
lenient substitute. -/
def codeTransform (code : String) (codeType : String) : Option Credential :=
  if codeType == "auth_code" then some (Credential.authCode code)
  else
    match parseJson code with
    | some j => some (Credential.tokenPayload j)
    | none => none

/-- C8: the code transform is the identity on the raw string for a bare
authorization code, and parses the string as JSON for a token payload, as
on the two instances from the test suite. -/
theorem codeTransform_by_code_type :
    (∀ s, codeTransform s "auth_code" = some (Credential.authCode s)) ∧
    codeTransform "my-code" "auth_code" = some (Credential.authCode "my-code") ∧
    codeTransform "\x7b\x22access_token\x22:\x22t\x22\x7d" "access_token"
      = some (Credential.tokenPayload (JVal.jobj [("access_token", JVal.jstr "t")])) := by
  refine ⟨fun s => rfl, rfl, ?_⟩
  decide

/-- Outcome of the promise returned by a terminal helper handler. -/
inductive HOutcome where
  | resolved (c : Credential)
  | rejected (message : String)
deriving DecidableEq

/-- Modelled from the spec: the shared validation and resolution logic of
`handleGET` and `handlePOST` in `src/helpers.js` (absent from the sources
here; their tests live in `test/helpers.test.js`): with a truthy `code`
and a state id strictly equal to the session id, resolve with the
transformed credential; otherwise reject with the error naming the
received code value. -/
def handleQueryData (qd : QueryData) (id : String) : HOutcome :=
  if codeTruthy qd && (jGet (stateOf qd) "id" == some (JVal.jstr id)) then
    match codeTransform (codeShown qd) ((qLookup qd "code_type").getD "") with
    | some cred => HOutcome.resolved cred
    | none => HOutcome.rejected "[IMSOAuthSDK:HTTP_ERROR] malformed token payload"
  else
    HOutcome.rejected ("[IMSOAuthSDK:HTTP_ERROR] error code=" ++ codeShown qd)

/-- Modelled from the spec: `handleGET` of `src/helpers.js` parses the
request URL's query string synchronously and applies the shared
validation. -/
def handleGET (requestUrl : String) (id : String) : HOutcome :=
  handleQueryData (getQueryDataFromUrl requestUrl) id

/-- Modelled from the spec: `handlePOST` of `src/helpers.js` accumulates
the streamed body chunks until the end-of-body signal, URL-decodes the
whole body, and applies the same validation as the GET handler. -/
def handlePOST (bodyChunks : List String) (id : String) : HOutcome :=
  handleQueryData (parseQueryChars (String.join bodyChunks).data) id

/-- The query part of `"/?" ++ qs` is exactly `qs`. -/
theorem queryPart_of_url (qs : String) :
    queryPart ("/?" ++ qs).data = some qs.data := rfl

/-- C7: a payload delivered as a GET query string and the same string
delivered as POST body chunks are handled identically; in particular, on
the concrete valid payload below both handlers resolve with the same
transformed credential, the POST body arriving in two chunks. -/
theorem handleGET_eq_handlePOST (chunks : List String) (id : String) :
    handleGET ("/?" ++ String.join chunks) id = handlePOST chunks id ∧
    handleGET "/?code=my-auth-code&code_type=auth_code&state=%7B%22id%22%3A%22abcd%22%7D"
        "abcd"
      = HOutcome.resolved (Credential.authCode "my-auth-code") ∧
    handlePOST ["code=my-auth-code&code_type=auth_code&", "state=%7B%22id%22%3A%22abcd%22%7D"]
        "abcd"
      = HOutcome.resolved (Credential.authCode "my-auth-code") := by
  refine ⟨?_, by decide, by decide⟩
  unfold handleGET handlePOST getQueryDataFromUrl
  rw [queryPart_of_url]

/-- Modelled from the spec: `handleUnsupportedHttpMethod` of
`src/helpers.js` (absent from the sources here): set status 405 and end
the response, signalling handled (`true`) without touching the flow's
pending result. -/
def handleUnsupportedHttpMethod (res : HttpResponse) : HttpResponse × Bool :=
  ({ res with statusCode := some 405, ended := true }, true)

/-- Modelled from the spec: `handleOPTIONS` of `src/helpers.js` (absent
from the sources here): apply the CORS policy and end the response with no
body, signalling handled (`true`) without touching the flow's pending
result. -/
def handleOPTIONS (res : HttpResponse) (explicitEnv globalCliEnv : Option Env) :
    HttpResponse × Bool :=
  ({ cors res explicitEnv globalCliEnv with ended := true }, true)

/-- An inbound HTTP request as seen by the orchestrator's dispatch. -/
structure InboundRequest where
  method : String
  url : String
  bodyChunks : List String
deriving DecidableEq, Repr

/-- Modelled from the spec: the method dispatch of the login orchestrator
over the `src/helpers.js` handlers (absent from the sources here): GET and
POST are the only terminal methods; an OPTIONS or unsupported-method
request settles nothing. -/
def dispatchSettles (req : InboundRequest) (id : String) : Option HOutcome :=
  if req.method == "GET" then some (handleGET req.url id)
  else if req.method == "POST" then some (handlePOST req.bodyChunks id)
  else none

/-- Modelled from the spec: the orchestrator waits for the first terminal
request; non-terminal requests are answered and skipped, and with no
terminal request the flow stays pending (`none`), bounded only by the
overall timeout. -/
def flowResult (id : String) : List InboundRequest → Option HOutcome
  | [] => none
  | r :: rs =>
      match dispatchSettles r id with
      | some o => some o
      | none => flowResult id rs

/-- C3: an OPTIONS request or a request with an unsupported method never
settles the flow's pending result: dispatch yields nothing for it and the
orchestrator's wait over any request sequence is unchanged by it; the
unsupported-method handler sets status 405 and ends the response, and the
OPTIONS handler ends the response with no body. -/
theorem nonterminal_methods_keep_flow_pending (req : InboundRequest) (id : String)
    (rs : List InboundRequest) (res : HttpResponse) (e g : Option Env)
    (hget : req.method ≠ "GET") (hpost : req.method ≠ "POST") :
    dispatchSettles req id = none ∧
    flowResult id (req :: rs) = flowResult id rs ∧
    (handleUnsupportedHttpMethod res).1.statusCode = some 405 ∧
    (handleUnsupportedHttpMethod res).1.ended = true ∧
    (handleUnsupportedHttpMethod res).2 = true ∧
    (handleOPTIONS HttpResponse.start e g).1.ended = true ∧
    (handleOPTIONS HttpResponse.start e g).1.body = none ∧
    (handleOPTIONS HttpResponse.start e g).2 = true := by
  have hd : dispatchSettles req id = none := by
    simp [dispatchSettles, hget, hpost]
  refine ⟨hd, ?_, rfl, rfl, rfl, rfl, rfl, rfl⟩
  simp [flowResult, hd]

/-- Witness for C3 at a concrete PUT request. -/
theorem nonterminal_methods_keep_flow_pending_witness :
    dispatchSettles ⟨"PUT", "/", []⟩ "abcd" = none ∧
    flowResult "abcd" [⟨"PUT", "/", []⟩] = none := by
  have h := nonterminal_methods_keep_flow_pending ⟨"PUT", "/", []⟩ "abcd" []
    HttpResponse.start none none (by decide) (by decide)
  exact ⟨h.1, by rw [h.2.1]; rfl⟩

/-- A query-parameter value as supplied in JS: a string, or the absent
values `undefined` and `null`. -/
inductive JsParam where
  | undef
  | nullv
  | str (s : String)
deriving DecidableEq, Repr

/-- Whether a parameter value is present (neither undefined nor null). -/
def JsParam.present : JsParam → Bool
  | JsParam.str _ => true
  | _ => false

/-- The string carried by a present parameter value. -/
def JsParam.strVal : JsParam → String
  | JsParam.str s => s
  | _ => ""

/-- Serialize the present parameters, in insertion order, as `key=value`
components. -/
def serializeParams : List (String × JsParam) → List String
  | [] => []
  | (k, v) :: rest =>
      match v with
      | JsParam.str s => (k ++ "=" ++ s) :: serializeParams rest
      | _ => serializeParams rest

/-- Join query components with `&`. -/
def joinAmp : List String → String
  | [] => ""
  | [x] => x
  | x :: y :: xs => x ++ "&" ++ joinAmp (y :: xs)

/-- Modelled from the spec: `authSiteUrl` of `src/helpers.js` (absent from
the sources here): appends the given parameters to the resolved
environment's authorization URL as a query string, keeping insertion order
and omitting every parameter whose value is undefined or null. -/
def authSiteUrl (queryParams : List (String × JsParam))
    (explicitEnv globalCliEnv : Option Env) : String :=
  match serializeParams queryParams with
  | [] => UrlParts.href (getImsCliOAuthUrl explicitEnv globalCliEnv)
  | parts =>
      UrlParts.href (getImsCliOAuthUrl explicitEnv globalCliEnv) ++ "?" ++ joinAmp parts

/-- C5: the URL builder emits a `key=value` component exactly for the
parameters whose value is neither undefined nor null, in insertion order;
on the example map `a=b, c=d, e=undefined` the result is the base URL
followed by `?a=b&c=d`. -/
theorem authSiteUrl_omits_absent_params (ps : List (String × JsParam)) (e g : Option Env) :
    serializeParams ps
      = ((ps.filter fun p => JsParam.present p.2).map
          fun p => p.1 ++ "=" ++ JsParam.strVal p.2) ∧
    authSiteUrl [("a", JsParam.str "b"), ("c", JsParam.str "d"), ("e", JsParam.undef)] e g
      = UrlParts.href (getImsCliOAuthUrl e g) ++ "?" ++ "a=b&c=d" := by
  constructor
  · induction ps with
    | nil => rfl
    | cons p rest ih =>
        obtain ⟨k, v⟩ := p
        cases v <;>
          simp [serializeParams, JsParam.present, JsParam.strVal, ih, List.filter]
  · show UrlParts.href (getImsCliOAuthUrl e g) ++ "?" ++ joinAmp ["a=b", "c=d"]
      = UrlParts.href (getImsCliOAuthUrl e g) ++ "?" ++ "a=b&c=d"
    rw [show joinAmp ["a=b", "c=d"] = "a=b&c=d" by decide]
